import Mathlib

/-!
Verification of the database-operator reconciliation engine: a shallow
embedding of src/k8s_operator.py. Python dicts are modelled as
insertion-ordered association lists over string keys, the resource and the
operator state as structures, and each method of the DatabaseOperator class
as a function on the operator state. The wall clock (datetime.now) is passed
explicitly. Logging and sleeping touch nothing modelled here and are
dropped; a raised Python exception is modelled by the exn constructor of
PyResult, a normal return by ret.
-/

namespace K8sOperator

/-! ## Association-list model of a Python dict with string keys -/

/-- Python `d[k]` as an optional lookup: the first binding for the key. -/
def assocGet? {α : Type} : List (String × α) → String → Option α
  | [], _ => none
  | p :: t, k => if p.1 == k then some p.2 else assocGet? t k

/-- Python `k in d`. -/
def assocHas {α : Type} : List (String × α) → String → Bool
  | [], _ => false
  | p :: t, k => (p.1 == k) || assocHas t k

/-- Python `d[k] = v`: overwrite in place when the key is present, append
a fresh binding at the end otherwise. -/
def assocSet {α : Type} (d : List (String × α)) (k : String) (v : α) :
    List (String × α) :=
  if assocHas d k then d.map (fun p => if p.1 == k then (k, v) else p)
  else d ++ [(k, v)]

/-- Python `del d[k]`. -/
def assocErase {α : Type} : List (String × α) → String → List (String × α)
  | [], _ => []
  | p :: t, k => if p.1 == k then assocErase t k else p :: assocErase t k

/-! ## Data model -/

/-- A spec value: the source stores strings (engine, version, storage) and
integers (replicas). -/
inductive SpecVal where
  | s (v : String)
  | n (v : Int)
deriving DecidableEq

abbrev Spec := List (String × SpecVal)

/-- A wall-clock instant standing for datetime.now(); only the fields the
strftime format of the source consumes are modelled. -/
structure DT where
  year : Nat
  month : Nat
  day : Nat
  hour : Nat
  minute : Nat
  second : Nat
deriving DecidableEq

/-- The health sub-mapping written by _monitor_health. -/
structure Health where
  status : String
  uptime : String
  connections : Nat
  storage_used : String
deriving DecidableEq

/-- The status mapping of a resource. The source uses a string-typed phase
and adds the health and connection_string keys only later, hence the Option
fields (none models an absent key). -/
structure Status where
  phase : String
  ready : Bool
  message : String
  health : Option Health
  connection_string : Option String
deriving DecidableEq

structure ResMetadata where
  created_at : DT
  generation : Nat
deriving DecidableEq

structure DatabaseResource where
  name : String
  spec : Spec
  status : Status
  metadata : ResMetadata
deriving DecidableEq

/-- DatabaseResource constructor of the source. -/
def DatabaseResource.new (name : String) (spec : Spec) (now : DT) : DatabaseResource :=
  { name := name
    spec := spec
    status :=
      { phase := "Pending"
        ready := false
        message := "Waiting for reconciliation"
        health := none
        connection_string := none }
    metadata := { created_at := now, generation := 1 } }

/-- One record of reconciliation_history. -/
structure Event where
  timestamp : DT
  database : String
  phase : String
  action : String
deriving DecidableEq

structure OperatorState where
  databases : List (String × DatabaseResource)
  reconciliation_history : List Event
deriving DecidableEq

/-- DatabaseOperator constructor of the source: empty store, empty history. -/
def initialOperator : OperatorState :=
  { databases := [], reconciliation_history := [] }

/-- Store the resource under the name (Python dict assignment on
self.databases), the history untouched. -/
def insertDB (st : OperatorState) (name : String) (db : DatabaseResource) :
    OperatorState :=
  { st with databases := assocSet st.databases name db }

/-- The exceptions the source can raise: only ValueError, from the spec
validation of create_database. -/
inductive OpError where
  | valueError (msg : String)
deriving DecidableEq

/-- Caller-visible outcome of a method of the operator: a normal return of a
value together with the operator state, or a raised exception together with
the operator state at the raise point. -/
inductive PyResult (α : Type) where
  | ret (st : OperatorState) (v : α)
  | exn (e : OpError) (st : OperatorState)
deriving DecidableEq

/-! ## Phase handlers -/

def specValStr : SpecVal → String
  | .s v => v
  | .n v => toString v

/-- _provision_database: the provisioning steps are log-and-sleep only; the
handler sets the phase and the message. -/
def provision_database (db : DatabaseResource) : DatabaseResource :=
  { db with status :=
      { db.status with
          phase := "Provisioning"
          message := "Database provisioning in progress" } }

/-- _check_provisioning_status. The read of the spec at key engine is
unguarded in the source (KeyError on a missing key); it is totalised with an
empty-string default, shown unreachable by the store invariant below. -/
def check_provisioning_status (db : DatabaseResource) : DatabaseResource :=
  { db with status :=
      { db.status with
          phase := "Running"
          ready := true
          message := "Database is ready"
          connection_string :=
            some (specValStr ((assocGet? db.spec "engine").getD (.s "")) ++
              "://localhost:5432/" ++ db.name) } }

/-- _monitor_health: writes a constant health sub-mapping, changes no phase. -/
def monitor_health (db : DatabaseResource) : DatabaseResource :=
  { db with status :=
      { db.status with
          health := some
            { status := "healthy"
              uptime := "1h 23m"
              connections := 15
              storage_used := "2.3 GB" } } }

/-- _apply_update: back to Running; note the source leaves ready untouched. -/
def apply_update (db : DatabaseResource) : DatabaseResource :=
  { db with status :=
      { db.status with
          phase := "Running"
          message := "Update completed successfully" } }

/-! ## Reconciliation engine -/

/-- DatabaseOperator.reconcile: look the resource up, dispatch on its phase
(the Deleting handler removes the entry, under the key db.name as in the
source), then append a history record carrying the phase of the mutated
resource object. The unknown-name path only logs and returns, leaving the
state unchanged. -/
def reconcile (name : String) (st : OperatorState) (now : DT) : OperatorState :=
  match assocGet? st.databases name with
  | none => st
  | some db =>
    let r : List (String × DatabaseResource) × DatabaseResource :=
      if db.status.phase = "Pending" then
        (assocSet st.databases name (provision_database db), provision_database db)
      else if db.status.phase = "Provisioning" then
        (assocSet st.databases name (check_provisioning_status db),
          check_provisioning_status db)
      else if db.status.phase = "Running" then
        (assocSet st.databases name (monitor_health db), monitor_health db)
      else if db.status.phase = "Updating" then
        (assocSet st.databases name (apply_update db), apply_update db)
      else if db.status.phase = "Deleting" then
        (assocErase st.databases db.name, db)
      else
        (st.databases, db)
    { databases := r.1
      reconciliation_history := st.reconciliation_history ++
        [{ timestamp := now
           database := name
           phase := r.2.status.phase
           action := "reconciled" }] }

/-- The source reconcile contains no raise statement and returns None on
every path, the unknown-name path included: the caller always sees a normal
return. -/
def reconcile_api (name : String) (st : OperatorState) (now : DT) : PyResult Unit :=
  .ret (reconcile name st now) ()

/-! ## Operations API -/

/-- The validation loop of create_database over the required fields
engine, version, storage (unrolled): the first required field missing from
the spec, if any. -/
def firstMissingField (spec : Spec) : Option String :=
  if !(assocHas spec "engine") then some "engine"
  else if !(assocHas spec "version") then some "version"
  else if !(assocHas spec "storage") then some "storage"
  else none

/-- DatabaseOperator.create_database: validate, store the fresh resource
(overwriting any resource already held under the name: the source has no
duplicate check), trigger reconciliation, and return the — by then already
reconciled — resource object. -/
def create_database (name : String) (spec : Spec) (st : OperatorState) (now : DT) :
    PyResult DatabaseResource :=
  match firstMissingField spec with
  | some f => .exn (.valueError ("Missing required field: " ++ f)) st
  | none =>
    let db := DatabaseResource.new name spec now
    let st1 : OperatorState := insertDB st name db
    let st2 := reconcile name st1 now
    .ret st2 ((assocGet? st2.databases name).getD db)

/-- The keys of the new spec whose value differs from the current spec; a key
missing from the current spec compares different, exactly as dict.get against
a non-None value in the source. -/
def specChanges (old newSpec : Spec) : Spec :=
  newSpec.filter (fun p => !(assocGet? old p.1 == some p.2))

/-- Python dict.update: merge the new spec into the old one, overwriting
existing keys in place and appending new ones. -/
def specUpdate (old newSpec : Spec) : Spec :=
  newSpec.foldl (fun acc p => assocSet acc p.1 p.2) old

/-- The resource after the accepted-update mutations of update_database:
merged spec, generation incremented by one, phase Updating. -/
def mergedResource (db : DatabaseResource) (spec : Spec) : DatabaseResource :=
  { db with
      spec := specUpdate db.spec spec
      metadata := { db.metadata with generation := db.metadata.generation + 1 }
      status := { db.status with phase := "Updating" } }

/-- DatabaseOperator.update_database: silent no-op on an unknown name or an
empty change set; otherwise merge, bump the generation, mark Updating and
reconcile synchronously. -/
def update_database (name : String) (spec : Spec) (st : OperatorState) (now : DT) :
    OperatorState :=
  match assocGet? st.databases name with
  | none => st
  | some db =>
    if (specChanges db.spec spec).isEmpty then st
    else
      reconcile name (insertDB st name (mergedResource db spec)) now

/-- The resource as delete_database mutates it: phase set to Deleting. -/
def markDeleting (db : DatabaseResource) : DatabaseResource :=
  { db with status := { db.status with phase := "Deleting" } }

/-- DatabaseOperator.delete_database: silent no-op on an unknown name;
otherwise mark Deleting and reconcile, whose Deleting branch removes the
entry from the store. -/
def delete_database (name : String) (st : OperatorState) (now : DT) : OperatorState :=
  match assocGet? st.databases name with
  | none => st
  | some db =>
    reconcile name (insertDB st name (markDeleting db)) now

/-- The resource as scale_database mutates it: spec.replicas written
directly. -/
def scaledResource (db : DatabaseResource) (replicas : Int) : DatabaseResource :=
  { db with spec := assocSet db.spec "replicas" (.n replicas) }

/-- DatabaseOperator.scale_database: writes spec.replicas directly; no phase
change, no generation bump, no reconcile. -/
def scale_database (name : String) (replicas : Int) (st : OperatorState) : OperatorState :=
  match assocGet? st.databases name with
  | none => st
  | some db =>
    insertDB st name (scaledResource db replicas)

/-- Two decimal digits with a leading zero, as strftime prints months, days,
hours, minutes and seconds. -/
def pad2 (n : Nat) : String :=
  if n < 10 then "0" ++ toString n else toString n

/-- Four decimal digits with leading zeros, as strftime prints the year. -/
def pad4 (n : Nat) : String :=
  if n < 10 then "000" ++ toString n
  else if n < 100 then "00" ++ toString n
  else if n < 1000 then "0" ++ toString n
  else toString n

/-- strftime with the format of the source: YYYYMMDD-HHMMSS. -/
def strftimeCompact (t : DT) : String :=
  pad4 t.year ++ pad2 t.month ++ pad2 t.day ++ "-" ++
    pad2 t.hour ++ pad2 t.minute ++ pad2 t.second

/-- DatabaseOperator.backup_database: returns None on an unknown name and the
backup identifier otherwise; the snapshot and upload steps are log-and-sleep
only and the operator state is handed back untouched on both paths. -/
def backup_database (name : String) (st : OperatorState) (now : DT) :
    OperatorState × Option String :=
  match assocGet? st.databases name with
  | none => (st, none)
  | some _ => (st, some (name ++ "-backup-" ++ strftimeCompact now))

/-- The status dict built by get_database_status for a known name. -/
structure StatusView where
  name : String
  engine : SpecVal
  version : SpecVal
  phase : String
  ready : Bool
  message : String
  created_at : DT
  generation : Nat
  health : Option Health
deriving DecidableEq

/-- get_database_status returns an error dict on an unknown name and the
status dict otherwise. -/
inductive GetStatusResult where
  | err (msg : String)
  | ok (v : StatusView)
deriving DecidableEq

/-- DatabaseOperator.get_database_status. The reads of the spec at keys
engine and version are unguarded in the source; they are totalised with an
empty-string default, shown unreachable by the store invariant below. -/
def get_database_status (name : String) (st : OperatorState) : GetStatusResult :=
  match assocGet? st.databases name with
  | none => .err "Database not found"
  | some db =>
    .ok
      { name := name
        engine := (assocGet? db.spec "engine").getD (.s "")
        version := (assocGet? db.spec "version").getD (.s "")
        phase := db.status.phase
        ready := db.status.ready
        message := db.status.message
        created_at := db.metadata.created_at
        generation := db.metadata.generation
        health := db.status.health }

/-- DatabaseOperator.list_databases. -/
def list_databases (st : OperatorState) : List GetStatusResult :=
  st.databases.map (fun p => get_database_status p.1 st)

/-- The name field of a status result, none for the error dict. -/
def resultName : GetStatusResult → Option String
  | .err _ => none
  | .ok v => some v.name

/-! ## Reachable operator states -/

/-- One call of the public Operations API, with the clock reading at the
call. -/
inductive Op where
  | create (name : String) (spec : Spec) (now : DT)
  | update (name : String) (spec : Spec) (now : DT)
  | delete (name : String) (now : DT)
  | scale (name : String) (replicas : Int) (now : DT)
  | backup (name : String) (now : DT)
  | reconcileOp (name : String) (now : DT)

/-- The operator state after one public call; a raised exception leaves the
state as it was at the raise point. -/
def applyOp (op : Op) (st : OperatorState) : OperatorState :=
  match op with
  | .create name spec now =>
    match create_database name spec st now with
    | .ret st' _ => st'
    | .exn _ st' => st'
  | .update name spec now => update_database name spec st now
  | .delete name now => delete_database name st now
  | .scale name replicas _ => scale_database name replicas st
  | .backup name now => (backup_database name st now).1
  | .reconcileOp name now => reconcile name st now

/-- States of the operator reachable from construction through the public
operations. -/
inductive Reachable : OperatorState → Prop where
  | base : Reachable initialOperator
  | next {st : OperatorState} (op : Op) : Reachable st → Reachable (applyOp op st)

/-! ## Small facts about the dict model -/

theorem assocHas_of_mem {α : Type} {d : List (String × α)} {p : String × α}
    (hp : p ∈ d) : assocHas d p.1 = true := by
  induction d with
  | nil => cases hp
  | cons q t ih =>
    rcases List.mem_cons.mp hp with rfl | h
    · simp [assocHas]
    · simp [assocHas, ih h]

theorem mem_assocSet {α : Type} {d : List (String × α)} {k : String} {v : α}
    {p : String × α} (hp : p ∈ assocSet d k v) :
    (p ∈ d ∧ p.1 ≠ k) ∨ p = (k, v) := by
  unfold assocSet at hp
  by_cases hc : assocHas d k = true
  · rw [if_pos hc] at hp
    rcases List.mem_map.mp hp with ⟨q, hq, hfq⟩
    by_cases hqk : (q.1 == k) = true
    · rw [if_pos hqk] at hfq
      exact Or.inr hfq.symm
    · rw [if_neg hqk] at hfq
      subst hfq
      exact Or.inl ⟨hq, fun he => hqk (by rw [he]; exact beq_self_eq_true k)⟩
  · rw [if_neg hc] at hp
    rcases List.mem_append.mp hp with h1 | h1
    · exact Or.inl ⟨h1, fun he => hc (he ▸ assocHas_of_mem h1)⟩
    · exact Or.inr (by simpa using h1)

theorem mem_assocErase {α : Type} {d : List (String × α)} {k : String}
    {p : String × α} (hp : p ∈ assocErase d k) : p ∈ d ∧ p.1 ≠ k := by
  induction d with
  | nil => cases hp
  | cons q t ih =>
    by_cases hqk : (q.1 == k) = true
    · rw [assocErase, if_pos hqk] at hp
      rcases ih hp with ⟨h1, h2⟩
      exact ⟨List.mem_cons_of_mem _ h1, h2⟩
    · rw [assocErase, if_neg hqk] at hp
      rcases List.mem_cons.mp hp with rfl | h
      · exact ⟨List.mem_cons_self _ _, fun he => hqk (by rw [he]; exact beq_self_eq_true k)⟩
      · rcases ih h with ⟨h1, h2⟩
        exact ⟨List.mem_cons_of_mem _ h1, h2⟩

theorem assocGet?_mapSet {α : Type} {d : List (String × α)} {k : String} (v : α)
    (hc : assocHas d k = true) :
    assocGet? (d.map (fun p => if p.1 == k then (k, v) else p)) k = some v := by
  induction d with
  | nil => simp [assocHas] at hc
  | cons q t ih =>
    by_cases hqk : (q.1 == k) = true
    · simp [assocGet?, hqk]
    · have ht : assocHas t k = true := by simpa [assocHas, hqk] using hc
      simpa [assocGet?, hqk] using ih ht

theorem assocGet?_appendSelf {α : Type} {d : List (String × α)} {k : String} (v : α)
    (hc : assocHas d k = false) :
    assocGet? (d ++ [(k, v)]) k = some v := by
  induction d with
  | nil => simp [assocGet?]
  | cons q t ih =>
    rw [assocHas] at hc
    rcases Bool.or_eq_false_iff.mp hc with ⟨h1, h2⟩
    rw [List.cons_append, assocGet?, if_neg (by simp [h1])]
    exact ih h2

theorem assocGet?_assocSet_self {α : Type} (d : List (String × α)) (k : String) (v : α) :
    assocGet? (assocSet d k v) k = some v := by
  unfold assocSet
  by_cases hc : assocHas d k = true
  · rw [if_pos hc]
    exact assocGet?_mapSet v hc
  · rw [if_neg hc]
    exact assocGet?_appendSelf v (by simpa using hc)

theorem assocGet?_assocErase_self {α : Type} (d : List (String × α)) (k : String) :
    assocGet? (assocErase d k) k = none := by
  induction d with
  | nil => rfl
  | cons q t ih =>
    by_cases hqk : (q.1 == k) = true
    · rw [assocErase, if_pos hqk]
      exact ih
    · rw [assocErase, if_neg hqk, assocGet?, if_neg hqk]
      exact ih

theorem assocGet?_mem {α : Type} {d : List (String × α)} {k : String} {v : α}
    (h : assocGet? d k = some v) : (k, v) ∈ d := by
  induction d with
  | nil => simp [assocGet?] at h
  | cons q t ih =>
    by_cases hqk : (q.1 == k) = true
    · rw [assocGet?, if_pos hqk] at h
      have hk : q.1 = k := eq_of_beq hqk
      have hv : q.2 = v := by injection h
      have hq : (k, v) = q := by
        rcases q with ⟨a, b⟩
        simp only at hk hv
        rw [hk, hv]
      rw [hq]
      exact List.mem_cons_self _ _
    · rw [assocGet?, if_neg hqk] at h
      exact List.mem_cons_of_mem _ (ih h)

theorem assocHas_isSome {α : Type} {d : List (String × α)} {k : String}
    (h : assocHas d k = true) : (assocGet? d k).isSome = true := by
  induction d with
  | nil => simp [assocHas] at h
  | cons q t ih =>
    by_cases hqk : (q.1 == k) = true
    · simp [assocGet?, hqk]
    · have ht : assocHas t k = true := by simpa [assocHas, hqk] using h
      rw [assocGet?, if_neg hqk]
      exact ih ht

theorem assocHas_map_set {α : Type} (d : List (String × α)) (k k' : String) (v : α) :
    assocHas (d.map (fun p => if p.1 == k' then (k', v) else p)) k = assocHas d k := by
  induction d with
  | nil => rfl
  | cons q t ih =>
    simp only [List.map_cons, assocHas]
    rw [ih]
    by_cases hqk' : (q.1 == k') = true
    · rw [if_pos hqk', eq_of_beq hqk']
    · rw [if_neg hqk']

theorem assocHas_append {α : Type} (d e : List (String × α)) (k : String) :
    assocHas (d ++ e) k = (assocHas d k || assocHas e k) := by
  induction d with
  | nil => simp [assocHas]
  | cons q t ih => simp [assocHas, ih, Bool.or_assoc]

theorem assocHas_assocSet_mono {α : Type} {d : List (String × α)} {k k' : String}
    (v : α) (h : assocHas d k = true) : assocHas (assocSet d k' v) k = true := by
  unfold assocSet
  by_cases hc : assocHas d k' = true
  · rw [if_pos hc, assocHas_map_set]
    exact h
  · rw [if_neg hc, assocHas_append, h]
    rfl

theorem specUpdate_has {k : String} (newSpec old : Spec)
    (h : assocHas old k = true) : assocHas (specUpdate old newSpec) k = true := by
  induction newSpec generalizing old with
  | nil => exact h
  | cons p t ih => exact ih (assocSet old p.1 p.2) (assocHas_assocSet_mono p.2 h)

theorem firstMissing_none {spec : Spec} (h : firstMissingField spec = none) :
    assocHas spec "engine" = true ∧ assocHas spec "version" = true ∧
      assocHas spec "storage" = true := by
  unfold firstMissingField at h
  cases h1 : assocHas spec "engine" <;> cases h2 : assocHas spec "version" <;>
    cases h3 : assocHas spec "storage" <;> rw [h1, h2, h3] at h <;>
      simp at h
  exact ⟨rfl, rfl, rfl⟩

/-! ## Field behavior of the handlers and constructors -/

@[simp] theorem provision_name (db : DatabaseResource) :
    (provision_database db).name = db.name := rfl

@[simp] theorem provision_spec (db : DatabaseResource) :
    (provision_database db).spec = db.spec := rfl

@[simp] theorem provision_phase (db : DatabaseResource) :
    (provision_database db).status.phase = "Provisioning" := rfl

@[simp] theorem provision_ready (db : DatabaseResource) :
    (provision_database db).status.ready = db.status.ready := rfl

@[simp] theorem provision_generation (db : DatabaseResource) :
    (provision_database db).metadata.generation = db.metadata.generation := rfl

@[simp] theorem check_name (db : DatabaseResource) :
    (check_provisioning_status db).name = db.name := rfl

@[simp] theorem check_spec (db : DatabaseResource) :
    (check_provisioning_status db).spec = db.spec := rfl

@[simp] theorem check_phase (db : DatabaseResource) :
    (check_provisioning_status db).status.phase = "Running" := rfl

@[simp] theorem check_ready (db : DatabaseResource) :
    (check_provisioning_status db).status.ready = true := rfl

@[simp] theorem monitor_name (db : DatabaseResource) :
    (monitor_health db).name = db.name := rfl

@[simp] theorem monitor_spec (db : DatabaseResource) :
    (monitor_health db).spec = db.spec := rfl

@[simp] theorem monitor_phase (db : DatabaseResource) :
    (monitor_health db).status.phase = db.status.phase := rfl

@[simp] theorem monitor_ready (db : DatabaseResource) :
    (monitor_health db).status.ready = db.status.ready := rfl

@[simp] theorem applyUpd_name (db : DatabaseResource) :
    (apply_update db).name = db.name := rfl

@[simp] theorem applyUpd_spec (db : DatabaseResource) :
    (apply_update db).spec = db.spec := rfl

@[simp] theorem applyUpd_phase (db : DatabaseResource) :
    (apply_update db).status.phase = "Running" := rfl

@[simp] theorem applyUpd_ready (db : DatabaseResource) :
    (apply_update db).status.ready = db.status.ready := rfl

@[simp] theorem applyUpd_generation (db : DatabaseResource) :
    (apply_update db).metadata.generation = db.metadata.generation := rfl

@[simp] theorem new_name (name : String) (spec : Spec) (now : DT) :
    (DatabaseResource.new name spec now).name = name := rfl

@[simp] theorem new_spec (name : String) (spec : Spec) (now : DT) :
    (DatabaseResource.new name spec now).spec = spec := rfl

@[simp] theorem new_phase (name : String) (spec : Spec) (now : DT) :
    (DatabaseResource.new name spec now).status.phase = "Pending" := rfl

@[simp] theorem new_ready (name : String) (spec : Spec) (now : DT) :
    (DatabaseResource.new name spec now).status.ready = false := rfl

@[simp] theorem new_generation (name : String) (spec : Spec) (now : DT) :
    (DatabaseResource.new name spec now).metadata.generation = 1 := rfl

@[simp] theorem merged_name (db : DatabaseResource) (spec : Spec) :
    (mergedResource db spec).name = db.name := rfl

@[simp] theorem merged_spec (db : DatabaseResource) (spec : Spec) :
    (mergedResource db spec).spec = specUpdate db.spec spec := rfl

@[simp] theorem merged_phase (db : DatabaseResource) (spec : Spec) :
    (mergedResource db spec).status.phase = "Updating" := rfl

@[simp] theorem merged_ready (db : DatabaseResource) (spec : Spec) :
    (mergedResource db spec).status.ready = db.status.ready := rfl

@[simp] theorem merged_generation (db : DatabaseResource) (spec : Spec) :
    (mergedResource db spec).metadata.generation = db.metadata.generation + 1 := rfl

/-! ## Branch equations of the reconciliation engine -/

theorem reconcile_unknown {st : OperatorState} {name : String} (now : DT)
    (h : assocGet? st.databases name = none) : reconcile name st now = st := by
  unfold reconcile
  rw [h]

theorem reconcile_pending {st : OperatorState} {name : String} {db : DatabaseResource}
    (now : DT) (hget : assocGet? st.databases name = some db)
    (hph : db.status.phase = "Pending") :
    reconcile name st now =
      { databases := assocSet st.databases name (provision_database db)
        reconciliation_history := st.reconciliation_history ++
          [{ timestamp := now
             database := name
             phase := "Provisioning"
             action := "reconciled" }] } := by
  unfold reconcile
  rw [hget]
  simp [hph]

theorem reconcile_provisioning {st : OperatorState} {name : String}
    {db : DatabaseResource} (now : DT) (hget : assocGet? st.databases name = some db)
    (hph : db.status.phase = "Provisioning") :
    reconcile name st now =
      { databases := assocSet st.databases name (check_provisioning_status db)
        reconciliation_history := st.reconciliation_history ++
          [{ timestamp := now
             database := name
             phase := "Running"
             action := "reconciled" }] } := by
  unfold reconcile
  rw [hget]
  simp [hph]

theorem reconcile_running {st : OperatorState} {name : String} {db : DatabaseResource}
    (now : DT) (hget : assocGet? st.databases name = some db)
    (hph : db.status.phase = "Running") :
    reconcile name st now =
      { databases := assocSet st.databases name (monitor_health db)
        reconciliation_history := st.reconciliation_history ++
          [{ timestamp := now
             database := name
             phase := "Running"
             action := "reconciled" }] } := by
  unfold reconcile
  rw [hget]
  simp [hph]

theorem reconcile_updating {st : OperatorState} {name : String} {db : DatabaseResource}
    (now : DT) (hget : assocGet? st.databases name = some db)
    (hph : db.status.phase = "Updating") :
    reconcile name st now =
      { databases := assocSet st.databases name (apply_update db)
        reconciliation_history := st.reconciliation_history ++
          [{ timestamp := now
             database := name
             phase := "Running"
             action := "reconciled" }] } := by
  unfold reconcile
  rw [hget]
  simp [hph]

theorem reconcile_deleting {st : OperatorState} {name : String} {db : DatabaseResource}
    (now : DT) (hget : assocGet? st.databases name = some db)
    (hph : db.status.phase = "Deleting") :
    reconcile name st now =
      { databases := assocErase st.databases db.name
        reconciliation_history := st.reconciliation_history ++
          [{ timestamp := now
             database := name
             phase := "Deleting"
             action := "reconciled" }] } := by
  unfold reconcile
  rw [hget]
  simp [hph]

/-! ## Branch equations of the operations -/

theorem create_invalid {spec : Spec} {f : String} (name : String) (st : OperatorState)
    (now : DT) (hm : firstMissingField spec = some f) :
    create_database name spec st now =
      .exn (.valueError ("Missing required field: " ++ f)) st := by
  unfold create_database
  rw [hm]

theorem create_valid {spec : Spec} (name : String) (st : OperatorState) (now : DT)
    (hm : firstMissingField spec = none) :
    create_database name spec st now =
      .ret
        (reconcile name (insertDB st name (DatabaseResource.new name spec now)) now)
        ((assocGet? (reconcile name
            (insertDB st name (DatabaseResource.new name spec now)) now).databases
          name).getD (DatabaseResource.new name spec now)) := by
  unfold create_database
  rw [hm]

theorem applyOp_create_eq (name : String) (spec : Spec) (now : DT) (st : OperatorState) :
    applyOp (Op.create name spec now) st =
      (match create_database name spec st now with
       | .ret st' _ => st'
       | .exn _ st' => st') := rfl

/-! ## The store invariant and its preservation -/

/-- Per-entry store invariant: the resource is stored under its own name, its
phase is one of the two quiescent phases, it is ready only while Running,
and its spec holds the three required keys. -/
def ResInv (p : String × DatabaseResource) : Prop :=
  p.2.name = p.1 ∧
  (p.2.status.phase = "Provisioning" ∨ p.2.status.phase = "Running") ∧
  (p.2.status.ready = true → p.2.status.phase = "Running") ∧
  assocHas p.2.spec "engine" = true ∧
  assocHas p.2.spec "version" = true ∧
  assocHas p.2.spec "storage" = true

def StateInv (st : OperatorState) : Prop := ∀ p ∈ st.databases, ResInv p

/-- Reconciling a resource whose phase is any of the five handled ones — with
readiness only allowed outside Pending and Provisioning when the phase is
Running, Updating or Deleting — lands every store entry back in the
invariant, provided all other entries already satisfy it. -/
theorem reconcile_target_inv {st : OperatorState} {name : String} {db : DatabaseResource}
    (now : DT) (hget : assocGet? st.databases name = some db)
    (hothers : ∀ p ∈ st.databases, p.1 ≠ name → ResInv p)
    (hname : db.name = name)
    (he : assocHas db.spec "engine" = true)
    (hv : assocHas db.spec "version" = true)
    (hs : assocHas db.spec "storage" = true)
    (hphase :
      (db.status.phase = "Pending" ∧ db.status.ready = false) ∨
      (db.status.phase = "Provisioning" ∧ db.status.ready = false) ∨
      db.status.phase = "Running" ∨
      db.status.phase = "Updating" ∨
      db.status.phase = "Deleting") :
    StateInv (reconcile name st now) := by
  rcases hphase with ⟨hph, hrd⟩ | ⟨hph, hrd⟩ | hph | hph | hph
  · rw [reconcile_pending now hget hph]
    intro p hp
    rcases mem_assocSet hp with ⟨hmem, hne⟩ | rfl
    · exact hothers p hmem hne
    · refine ⟨by simpa using hname, Or.inl rfl, ?_, by simpa using he,
        by simpa using hv, by simpa using hs⟩
      intro hr
      rw [provision_ready, hrd] at hr
      exact Bool.noConfusion hr
  · rw [reconcile_provisioning now hget hph]
    intro p hp
    rcases mem_assocSet hp with ⟨hmem, hne⟩ | rfl
    · exact hothers p hmem hne
    · exact ⟨by simpa using hname, Or.inr rfl, fun _ => rfl, by simpa using he,
        by simpa using hv, by simpa using hs⟩
  · rw [reconcile_running now hget hph]
    intro p hp
    rcases mem_assocSet hp with ⟨hmem, hne⟩ | rfl
    · exact hothers p hmem hne
    · refine ⟨by simpa using hname, Or.inr (by rw [monitor_phase]; exact hph), ?_,
        by simpa using he, by simpa using hv, by simpa using hs⟩
      intro _
      rw [monitor_phase]
      exact hph
  · rw [reconcile_updating now hget hph]
    intro p hp
    rcases mem_assocSet hp with ⟨hmem, hne⟩ | rfl
    · exact hothers p hmem hne
    · exact ⟨by simpa using hname, Or.inr rfl, fun _ => rfl, by simpa using he,
        by simpa using hv, by simpa using hs⟩
  · rw [reconcile_deleting now hget hph]
    intro p hp
    rcases mem_assocErase hp with ⟨hmem, hne⟩
    rw [hname] at hne
    exact hothers p hmem hne

theorem stateInv_create (name : String) (spec : Spec) (now : DT) {st : OperatorState}
    (h : StateInv st) : StateInv (applyOp (Op.create name spec now) st) := by
  rw [applyOp_create_eq]
  cases hm : firstMissingField spec with
  | some f =>
    rw [create_invalid name st now hm]
    exact h
  | none =>
    rw [create_valid name st now hm]
    show StateInv
      (reconcile name (insertDB st name (DatabaseResource.new name spec now)) now)
    obtain ⟨he, hv, hs⟩ := firstMissing_none hm
    refine reconcile_target_inv now (assocGet?_assocSet_self _ _ _) ?_ rfl he hv hs
      (Or.inl ⟨rfl, rfl⟩)
    intro p hp hne
    rcases mem_assocSet hp with ⟨hmem, _⟩ | rfl
    · exact h p hmem
    · exact absurd rfl hne

theorem stateInv_update (name : String) (spec : Spec) (now : DT) {st : OperatorState}
    (h : StateInv st) : StateInv (applyOp (Op.update name spec now) st) := by
  show StateInv (update_database name spec st now)
  unfold update_database
  cases hg : assocGet? st.databases name with
  | none => exact h
  | some db =>
    show StateInv (if (specChanges db.spec spec).isEmpty = true then st
      else reconcile name (insertDB st name (mergedResource db spec)) now)
    by_cases hch : (specChanges db.spec spec).isEmpty = true
    · rw [if_pos hch]
      exact h
    · rw [if_neg hch]
      obtain ⟨hname, hphase, hready, he, hv, hs⟩ := h _ (assocGet?_mem hg)
      refine reconcile_target_inv now (assocGet?_assocSet_self _ _ _) ?_ hname
        (specUpdate_has spec db.spec he) (specUpdate_has spec db.spec hv)
        (specUpdate_has spec db.spec hs) (Or.inr (Or.inr (Or.inr (Or.inl rfl))))
      intro p hp hne
      rcases mem_assocSet hp with ⟨hmem, _⟩ | rfl
      · exact h p hmem
      · exact absurd rfl hne

theorem stateInv_delete (name : String) (now : DT) {st : OperatorState}
    (h : StateInv st) : StateInv (applyOp (Op.delete name now) st) := by
  show StateInv (delete_database name st now)
  unfold delete_database
  cases hg : assocGet? st.databases name with
  | none => exact h
  | some db =>
    show StateInv (reconcile name (insertDB st name (markDeleting db)) now)
    obtain ⟨hname, hphase, hready, he, hv, hs⟩ := h _ (assocGet?_mem hg)
    refine reconcile_target_inv now (assocGet?_assocSet_self _ _ _) ?_ hname he hv hs
      (Or.inr (Or.inr (Or.inr (Or.inr rfl))))
    intro p hp hne
    rcases mem_assocSet hp with ⟨hmem, _⟩ | rfl
    · exact h p hmem
    · exact absurd rfl hne

theorem stateInv_scale (name : String) (replicas : Int) (now : DT) {st : OperatorState}
    (h : StateInv st) : StateInv (applyOp (Op.scale name replicas now) st) := by
  show StateInv (scale_database name replicas st)
  unfold scale_database
  cases hg : assocGet? st.databases name with
  | none => exact h
  | some db =>
    show StateInv (insertDB st name (scaledResource db replicas))
    intro p hp
    rcases mem_assocSet hp with ⟨hmem, _⟩ | rfl
    · exact h p hmem
    · obtain ⟨hname, hphase, hready, he, hv, hs⟩ := h _ (assocGet?_mem hg)
      exact ⟨hname, hphase, hready, assocHas_assocSet_mono _ he,
        assocHas_assocSet_mono _ hv, assocHas_assocSet_mono _ hs⟩

theorem stateInv_backup (name : String) (now : DT) {st : OperatorState}
    (h : StateInv st) : StateInv (applyOp (Op.backup name now) st) := by
  show StateInv (backup_database name st now).1
  unfold backup_database
  cases hg : assocGet? st.databases name with
  | none => exact h
  | some db => exact h

theorem stateInv_reconcile (name : String) (now : DT) {st : OperatorState}
    (h : StateInv st) : StateInv (applyOp (Op.reconcileOp name now) st) := by
  show StateInv (reconcile name st now)
  cases hg : assocGet? st.databases name with
  | none =>
    rw [reconcile_unknown now hg]
    exact h
  | some db =>
    obtain ⟨hname, hphase, hready, he, hv, hs⟩ := h _ (assocGet?_mem hg)
    refine reconcile_target_inv now hg (fun p hp _ => h p hp) hname he hv hs ?_
    rcases hphase with hph | hph
    · cases hr : db.status.ready with
      | false => exact Or.inr (Or.inl ⟨hph, rfl⟩)
      | true =>
        have hrun := hready hr
        rw [hph] at hrun
        exact absurd hrun (by decide)
    · exact Or.inr (Or.inr (Or.inl hph))

/-- Every state reachable through the public operations satisfies the store
invariant. -/
theorem reachable_stateInv {st : OperatorState} (h : Reachable st) : StateInv st := by
  induction h with
  | base => intro p hp; cases hp
  | next op _ ih =>
    cases op with
    | create name spec now => exact stateInv_create name spec now ih
    | update name spec now => exact stateInv_update name spec now ih
    | delete name now => exact stateInv_delete name now ih
    | scale name replicas now => exact stateInv_scale name replicas now ih
    | backup name now => exact stateInv_backup name now ih
    | reconcileOp name now => exact stateInv_reconcile name now ih

/-! ## Concrete fixtures for witnesses and counterexamples -/

def demoNow : DT := ⟨2024, 1, 1, 12, 0, 0⟩

def tick1 : DT := ⟨2024, 1, 1, 12, 0, 1⟩

def tick2 : DT := ⟨2024, 1, 1, 12, 0, 2⟩

def demoSpec : Spec :=
  [("engine", SpecVal.s "postgresql"), ("version", SpecVal.s "14.9"),
   ("storage", SpecVal.s "100Gi")]

/-- The operator right after create of prod-db (the create call already ran
one reconcile). -/
def demoState : OperatorState :=
  applyOp (Op.create "prod-db" demoSpec demoNow) initialOperator

/-- The resource stored in demoState: the fresh resource advanced once by the
Pending handler. -/
def demoRes : DatabaseResource :=
  provision_database (DatabaseResource.new "prod-db" demoSpec demoNow)

def demoReachable : Reachable demoState :=
  Reachable.next (Op.create "prod-db" demoSpec demoNow) Reachable.base

/-- The Python return channel: whether the call returned normally. -/
def isRet {α : Type} : PyResult α → Bool
  | .ret _ _ => true
  | .exn _ _ => false

/-- The operator state a call left behind. -/
def stateOf {α : Type} : PyResult α → OperatorState
  | .ret st _ => st
  | .exn _ st => st

/-- The value a call returned, none when it raised. -/
def valueOf {α : Type} : PyResult α → Option α
  | .ret _ v => some v
  | .exn _ _ => none

def phaseOf (st : OperatorState) (name : String) : Option String :=
  (assocGet? st.databases name).map (fun db => db.status.phase)

def readyOf (st : OperatorState) (name : String) : Option Bool :=
  (assocGet? st.databases name).map (fun db => db.status.ready)

def connOf (st : OperatorState) (name : String) : Option (Option String) :=
  (assocGet? st.databases name).map (fun db => db.status.connection_string)

/-! ## Claims -/

/-- C1: in every operator state reachable through the public operations
(create, update, delete, scale, backup, reconcile), every stored resource
has status.ready = true only when status.phase is Running, and ready is
false in every phase other than Running. In particular no reachable state
even holds a resource in phase Updating: an accepted spec update reconciles
back to Running inside the same call. -/
theorem C1_ready_iff_running (st : OperatorState) (h : Reachable st)
    (p : String × DatabaseResource) (hp : p ∈ st.databases) :
    (p.2.status.ready = true → p.2.status.phase = "Running") ∧
    (p.2.status.phase ≠ "Running" → p.2.status.ready = false) := by
  obtain ⟨-, -, h3, -, -, -⟩ := reachable_stateInv h p hp
  refine ⟨h3, fun hne => ?_⟩
  cases hr : p.2.status.ready
  · rfl
  · exact absurd (h3 hr) hne

/-- C1 witness: the invariant instantiated at the concrete reachable state
holding prod-db. -/
theorem C1_witness :
    (demoRes.status.ready = true → demoRes.status.phase = "Running") ∧
    (demoRes.status.phase ≠ "Running" → demoRes.status.ready = false) :=
  C1_ready_iff_running demoState demoReachable ("prod-db", demoRes) (by decide)

/-- C10: in every reachable state the spec of every stored resource carries
the keys engine, version and storage — creation validates them, updates only
add or overwrite keys, scaling only writes replicas — so the unguarded reads
of the spec at engine and version in get_database_status always find their
key. -/
theorem C10_required_keys (st : OperatorState) (h : Reachable st)
    (p : String × DatabaseResource) (hp : p ∈ st.databases) :
    assocHas p.2.spec "engine" = true ∧ assocHas p.2.spec "version" = true ∧
    assocHas p.2.spec "storage" = true ∧
    (assocGet? p.2.spec "engine").isSome = true ∧
    (assocGet? p.2.spec "version").isSome = true := by
  obtain ⟨-, -, -, he, hv, hs⟩ := reachable_stateInv h p hp
  exact ⟨he, hv, hs, assocHas_isSome he, assocHas_isSome hv⟩

/-- C10 witness: the key invariant instantiated at the concrete reachable
state holding prod-db. -/
theorem C10_witness :
    assocHas demoRes.spec "engine" = true ∧ assocHas demoRes.spec "version" = true ∧
    assocHas demoRes.spec "storage" = true ∧
    (assocGet? demoRes.spec "engine").isSome = true ∧
    (assocGet? demoRes.spec "version").isSome = true :=
  C10_required_keys demoState demoReachable ("prod-db", demoRes) (by decide)

/-- C4 amended: Reconcile on an unknown name performs no work — no resource
is mutated and no Event Log entry is appended, the whole state comes back
unchanged — but it does not fail: the source raises nothing and returns
normally, the only signal being an error-level log line invisible to the
caller. -/
theorem C4_reconcile_unknown_returns (st : OperatorState) (name : String) (now : DT)
    (h : assocGet? st.databases name = none) :
    reconcile_api name st now = PyResult.ret st () := by
  unfold reconcile_api
  rw [reconcile_unknown now h]

/-- C4 counterexample: at a concrete unknown name against a nonempty store
the call comes back through the ret constructor — a normal return, not an
exception — with the operator state, event history included, unchanged: it
does not fail with NotFoundError or anything else. -/
theorem C4_counterexample :
    reconcile_api "ghost-db" demoState tick1 = PyResult.ret demoState () := by decide

/-- C4 witness for the amended theorem. -/
theorem C4_witness :
    reconcile_api "missing-db" initialOperator demoNow = PyResult.ret initialOperator () :=
  C4_reconcile_unknown_returns initialOperator "missing-db" demoNow (by decide)

/-- C8: creating with a spec missing any of engine, version or storage raises
ValueError naming the first missing field, and it raises before any
mutation: the operator state at the raise point is the original one — no
resource inserted, none mutated. -/
theorem C8_validation (name : String) (spec : Spec) (st : OperatorState) (now : DT)
    (h : assocHas spec "engine" = false ∨ assocHas spec "version" = false ∨
      assocHas spec "storage" = false) :
    (firstMissingField spec).isSome = true ∧
    create_database name spec st now =
      .exn (.valueError ("Missing required field: " ++ (firstMissingField spec).getD ""))
        st := by
  cases hm : firstMissingField spec with
  | none =>
    obtain ⟨he, hv, hs⟩ := firstMissing_none hm
    rcases h with h | h | h
    · rw [he] at h
      exact Bool.noConfusion h
    · rw [hv] at h
      exact Bool.noConfusion h
    · rw [hs] at h
      exact Bool.noConfusion h
  | some f =>
    refine ⟨rfl, ?_⟩
    rw [create_invalid name st now hm]
    rfl

def badSpec : Spec :=
  [("engine", SpecVal.s "postgresql"), ("version", SpecVal.s "14.9")]

/-- C8 witness: a spec without storage. -/
theorem C8_witness :
    (firstMissingField badSpec).isSome = true ∧
    create_database "prod-db" badSpec initialOperator demoNow =
      .exn (.valueError ("Missing required field: " ++ (firstMissingField badSpec).getD ""))
        initialOperator :=
  C8_validation "prod-db" badSpec initialOperator demoNow (by decide)

/-- C9: backing a stored resource up hands the state back untouched — phase
and generation of every resource included — together with the identifier
name-backup-timestamp, the timestamp in the YYYYMMDD-HHMMSS format of the
source. -/
theorem C9_backup_format (st : OperatorState) (name : String) (db : DatabaseResource)
    (now : DT) (hget : assocGet? st.databases name = some db) :
    backup_database name st now =
      (st, some (name ++ "-backup-" ++ strftimeCompact now)) := by
  unfold backup_database
  rw [hget]

/-- C9 witness: at the fixed clock 2024-01-01T12:00:00 the backup of prod-db
is prod-db-backup-20240101-120000 and the state is unchanged. -/
theorem C9_witness :
    backup_database "prod-db" demoState demoNow =
      (demoState, some "prod-db-backup-20240101-120000") := by
  rw [C9_backup_format demoState "prod-db" demoRes demoNow (by decide)]
  rfl

/-- A successful create stores the fresh resource, reconciles it once (the
Pending handler moves it to Provisioning) and returns the reconciled
resource object. -/
theorem create_valid_run {spec : Spec} (name : String) (st : OperatorState) (now : DT)
    (hm : firstMissingField spec = none) :
    create_database name spec st now =
      .ret
        (reconcile name (insertDB st name (DatabaseResource.new name spec now)) now)
        (provision_database (DatabaseResource.new name spec now)) := by
  rw [create_valid name st now hm]
  have hget : assocGet?
      (insertDB st name (DatabaseResource.new name spec now)).databases name =
      some (DatabaseResource.new name spec now) :=
    assocGet?_assocSet_self _ _ _
  have hrec := reconcile_pending now hget rfl
  rw [hrec, assocGet?_assocSet_self, Option.getD_some]

/-- After a successful create, the resource stored under the name is the
provisioned fresh resource. -/
theorem create_valid_stored {spec : Spec} (name : String) (st : OperatorState) (now : DT)
    (hm : firstMissingField spec = none) :
    assocGet? (stateOf (create_database name spec st now)).databases name =
      some (provision_database (DatabaseResource.new name spec now)) := by
  rw [create_valid_run name st now hm]
  show assocGet? (reconcile name
      (insertDB st name (DatabaseResource.new name spec now)) now).databases name =
    some (provision_database (DatabaseResource.new name spec now))
  have hget : assocGet?
      (insertDB st name (DatabaseResource.new name spec now)).databases name =
      some (DatabaseResource.new name spec now) :=
    assocGet?_assocSet_self _ _ _
  rw [reconcile_pending now hget rfl]
  exact assocGet?_assocSet_self _ _ _

/-- C2 counterexample: creating under the already-present name prod-db raises
nothing — the source has no duplicate check and no AlreadyExistsError — and
the resource stored under the name is replaced, not left unchanged. -/
theorem C2_counterexample :
    isRet (create_database "prod-db"
      [("engine", SpecVal.s "mysql"), ("version", SpecVal.s "8.0"),
       ("storage", SpecVal.s "50Gi")] demoState tick1) = true ∧
    (assocGet? demoState.databases "prod-db").map (fun db => db.spec) = some demoSpec ∧
    (assocGet? (stateOf (create_database "prod-db"
      [("engine", SpecVal.s "mysql"), ("version", SpecVal.s "8.0"),
       ("storage", SpecVal.s "50Gi")] demoState tick1)).databases "prod-db").map
      (fun db => db.spec) =
      some [("engine", SpecVal.s "mysql"), ("version", SpecVal.s "8.0"),
        ("storage", SpecVal.s "50Gi")] ∧
    demoSpec ≠
      [("engine", SpecVal.s "mysql"), ("version", SpecVal.s "8.0"),
       ("storage", SpecVal.s "50Gi")] := by decide

/-- C2 amended: for every store in which the name is already present,
CreateResource with a valid spec does not fail — it replaces the stored
resource with a freshly created one (generation 1, the new spec), which the
create call itself immediately reconciles from Pending to Provisioning. -/
theorem C2_create_replaces (st : OperatorState) (name : String) (spec : Spec) (now : DT)
    (hvalid : firstMissingField spec = none)
    (_hpresent : assocHas st.databases name = true) :
    create_database name spec st now =
      .ret
        (reconcile name (insertDB st name (DatabaseResource.new name spec now)) now)
        (provision_database (DatabaseResource.new name spec now)) ∧
    assocGet? (stateOf (create_database name spec st now)).databases name =
      some (provision_database (DatabaseResource.new name spec now)) ∧
    (provision_database (DatabaseResource.new name spec now)).metadata.generation = 1 ∧
    (provision_database (DatabaseResource.new name spec now)).status.phase =
      "Provisioning" ∧
    (provision_database (DatabaseResource.new name spec now)).spec = spec :=
  ⟨create_valid_run name st now hvalid, create_valid_stored name st now hvalid,
    rfl, rfl, rfl⟩

/-- C2 witness for the amended theorem: creating prod-db again over
demoState with a different valid spec. -/
theorem C2_witness :
    create_database "prod-db"
      [("engine", SpecVal.s "mysql"), ("version", SpecVal.s "8.0"),
       ("storage", SpecVal.s "50Gi")] demoState tick1 =
      .ret
        (reconcile "prod-db"
          (insertDB demoState "prod-db"
            (DatabaseResource.new "prod-db"
              [("engine", SpecVal.s "mysql"), ("version", SpecVal.s "8.0"),
               ("storage", SpecVal.s "50Gi")] tick1)) tick1)
        (provision_database (DatabaseResource.new "prod-db"
          [("engine", SpecVal.s "mysql"), ("version", SpecVal.s "8.0"),
           ("storage", SpecVal.s "50Gi")] tick1)) ∧
    assocGet? (stateOf (create_database "prod-db"
      [("engine", SpecVal.s "mysql"), ("version", SpecVal.s "8.0"),
       ("storage", SpecVal.s "50Gi")] demoState tick1)).databases "prod-db" =
      some (provision_database (DatabaseResource.new "prod-db"
        [("engine", SpecVal.s "mysql"), ("version", SpecVal.s "8.0"),
         ("storage", SpecVal.s "50Gi")] tick1)) ∧
    (provision_database (DatabaseResource.new "prod-db"
      [("engine", SpecVal.s "mysql"), ("version", SpecVal.s "8.0"),
       ("storage", SpecVal.s "50Gi")] tick1)).metadata.generation = 1 ∧
    (provision_database (DatabaseResource.new "prod-db"
      [("engine", SpecVal.s "mysql"), ("version", SpecVal.s "8.0"),
       ("storage", SpecVal.s "50Gi")] tick1)).status.phase = "Provisioning" ∧
    (provision_database (DatabaseResource.new "prod-db"
      [("engine", SpecVal.s "mysql"), ("version", SpecVal.s "8.0"),
       ("storage", SpecVal.s "50Gi")] tick1)).spec =
      [("engine", SpecVal.s "mysql"), ("version", SpecVal.s "8.0"),
       ("storage", SpecVal.s "50Gi")] :=
  C2_create_replaces demoState "prod-db"
    [("engine", SpecVal.s "mysql"), ("version", SpecVal.s "8.0"),
     ("storage", SpecVal.s "50Gi")] tick1 (by decide) (by decide)

/-- C3 counterexample: at the concrete successful create call the returned
resource has phase Provisioning, not Pending, because create reconciles the
fresh resource before returning it. -/
theorem C3_counterexample :
    (valueOf (create_database "prod-db" demoSpec initialOperator demoNow)).map
      (fun db => db.status.phase) ≠ some "Pending" ∧
    (valueOf (create_database "prod-db" demoSpec initialOperator demoNow)).map
      (fun db => db.status.phase) = some "Provisioning" := by decide

/-- C3 amended: a successful create inserts a resource with phase Pending and
generation 1 and then immediately reconciles it, so at the point the call
returns, the inserted — and returned — resource has phase Provisioning and
generation 1. -/
theorem C3_create_inserts_pending (st : OperatorState) (name : String) (spec : Spec)
    (now : DT) (hvalid : firstMissingField spec = none)
    (_habsent : assocHas st.databases name = false) :
    (DatabaseResource.new name spec now).status.phase = "Pending" ∧
    (DatabaseResource.new name spec now).metadata.generation = 1 ∧
    create_database name spec st now =
      .ret
        (reconcile name (insertDB st name (DatabaseResource.new name spec now)) now)
        (provision_database (DatabaseResource.new name spec now)) ∧
    assocGet? (stateOf (create_database name spec st now)).databases name =
      some (provision_database (DatabaseResource.new name spec now)) ∧
    (provision_database (DatabaseResource.new name spec now)).status.phase =
      "Provisioning" ∧
    (provision_database (DatabaseResource.new name spec now)).metadata.generation = 1 :=
  ⟨rfl, rfl, create_valid_run name st now hvalid, create_valid_stored name st now hvalid,
    rfl, rfl⟩

/-- C3 witness for the amended theorem: creating prod-db on the empty
operator. -/
theorem C3_witness :
    (DatabaseResource.new "prod-db" demoSpec demoNow).status.phase = "Pending" ∧
    (DatabaseResource.new "prod-db" demoSpec demoNow).metadata.generation = 1 ∧
    create_database "prod-db" demoSpec initialOperator demoNow =
      .ret
        (reconcile "prod-db"
          (insertDB initialOperator "prod-db"
            (DatabaseResource.new "prod-db" demoSpec demoNow)) demoNow)
        (provision_database (DatabaseResource.new "prod-db" demoSpec demoNow)) ∧
    assocGet? (stateOf (create_database "prod-db" demoSpec initialOperator
      demoNow)).databases "prod-db" =
      some (provision_database (DatabaseResource.new "prod-db" demoSpec demoNow)) ∧
    (provision_database (DatabaseResource.new "prod-db" demoSpec
      demoNow)).status.phase = "Provisioning" ∧
    (provision_database (DatabaseResource.new "prod-db" demoSpec
      demoNow)).metadata.generation = 1 :=
  C3_create_inserts_pending initialOperator "prod-db" demoSpec demoNow (by decide)
    (by decide)

/-- C5: for a stored resource, an update whose new spec differs on at least
one key merges the new spec into the old one, increments the generation by
exactly one, sets the phase to Updating and immediately triggers Reconcile on
the marked state — whose Updating handler then stores the resource back with
phase Running, the merged spec and the incremented generation; an update
whose new spec differs on no key is a complete no-op. -/
theorem C5_update_protocol (st : OperatorState) (name : String) (db : DatabaseResource)
    (spec : Spec) (now : DT) (hget : assocGet? st.databases name = some db) :
    ((specChanges db.spec spec).isEmpty = false →
      (mergedResource db spec).status.phase = "Updating" ∧
      (mergedResource db spec).metadata.generation = db.metadata.generation + 1 ∧
      (mergedResource db spec).spec = specUpdate db.spec spec ∧
      update_database name spec st now =
        reconcile name (insertDB st name (mergedResource db spec)) now ∧
      assocGet? (update_database name spec st now).databases name =
        some (apply_update (mergedResource db spec)) ∧
      (apply_update (mergedResource db spec)).metadata.generation =
        db.metadata.generation + 1 ∧
      (apply_update (mergedResource db spec)).spec = specUpdate db.spec spec ∧
      (apply_update (mergedResource db spec)).status.phase = "Running") ∧
    ((specChanges db.spec spec).isEmpty = true →
      update_database name spec st now = st) := by
  have hupd : update_database name spec st now =
      (if (specChanges db.spec spec).isEmpty = true then st
       else reconcile name (insertDB st name (mergedResource db spec)) now) := by
    unfold update_database
    rw [hget]
  constructor
  · intro hch
    have heq : update_database name spec st now =
        reconcile name (insertDB st name (mergedResource db spec)) now := by
      rw [hupd, if_neg (by simp [hch])]
    refine ⟨rfl, rfl, rfl, heq, ?_, rfl, rfl, rfl⟩
    have hget2 : assocGet? (insertDB st name (mergedResource db spec)).databases name =
        some (mergedResource db spec) :=
      assocGet?_assocSet_self _ _ _
    rw [heq, reconcile_updating now hget2 rfl]
    exact assocGet?_assocSet_self _ _ _
  · intro hch
    rw [hupd, if_pos hch]

def updSpec : Spec := [("version", SpecVal.s "15.0")]

/-- C5 witness: updating the version of prod-db, a one-key change set. -/
theorem C5_witness :
    ((specChanges demoRes.spec updSpec).isEmpty = false →
      (mergedResource demoRes updSpec).status.phase = "Updating" ∧
      (mergedResource demoRes updSpec).metadata.generation =
        demoRes.metadata.generation + 1 ∧
      (mergedResource demoRes updSpec).spec = specUpdate demoRes.spec updSpec ∧
      update_database "prod-db" updSpec demoState tick1 =
        reconcile "prod-db"
          (insertDB demoState "prod-db" (mergedResource demoRes updSpec)) tick1 ∧
      assocGet? (update_database "prod-db" updSpec demoState tick1).databases
        "prod-db" = some (apply_update (mergedResource demoRes updSpec)) ∧
      (apply_update (mergedResource demoRes updSpec)).metadata.generation =
        demoRes.metadata.generation + 1 ∧
      (apply_update (mergedResource demoRes updSpec)).spec =
        specUpdate demoRes.spec updSpec ∧
      (apply_update (mergedResource demoRes updSpec)).status.phase = "Running") ∧
    ((specChanges demoRes.spec updSpec).isEmpty = true →
      update_database "prod-db" updSpec demoState tick1 = demoState) :=
  C5_update_protocol demoState "prod-db" demoRes updSpec tick1 (by decide)

/-- The state after the first explicit reconcile of the C6 scenario. -/
def c6AfterR1 : OperatorState := reconcile "prod-db" demoState tick1

/-- The state after the second explicit reconcile of the C6 scenario. -/
def c6AfterR2 : OperatorState := reconcile "prod-db" c6AfterR1 tick2

/-- C6 counterexample: right after the create call of the scenario the phase
of prod-db is already Provisioning, not Pending — create itself runs the
first reconcile. -/
theorem C6_counterexample :
    phaseOf demoState "prod-db" ≠ some "Pending" ∧
    phaseOf demoState "prod-db" = some "Provisioning" := by decide

/-- C6 amended: the scenario shifted by the reconcile that create itself
performs: after CreateResource the phase of prod-db is Provisioning; after
one explicit Reconcile the phase is Running, ready is true and the
connection string is postgresql://localhost:5432/prod-db; a further
Reconcile leaves all of that in place. -/
theorem C6_scenario :
    phaseOf demoState "prod-db" = some "Provisioning" ∧
    readyOf demoState "prod-db" = some false ∧
    phaseOf c6AfterR1 "prod-db" = some "Running" ∧
    readyOf c6AfterR1 "prod-db" = some true ∧
    connOf c6AfterR1 "prod-db" = some (some "postgresql://localhost:5432/prod-db") ∧
    phaseOf c6AfterR2 "prod-db" = some "Running" ∧
    readyOf c6AfterR2 "prod-db" = some true ∧
    connOf c6AfterR2 "prod-db" = some (some "postgresql://localhost:5432/prod-db") := by
  decide

/-- C7: deleting a stored resource removes it: afterwards the name resolves
to nothing in the store, every entry of the ListResources output carries a
different name, and GetStatus answers with the not-found error dict. -/
theorem C7_delete_removes (st : OperatorState) (h : Reachable st) (name : String)
    (db : DatabaseResource) (now : DT) (hget : assocGet? st.databases name = some db) :
    assocGet? (delete_database name st now).databases name = none ∧
    (list_databases (delete_database name st now)).all
      (fun r => !(resultName r == some name)) = true ∧
    get_database_status name (delete_database name st now) =
      .err "Database not found" := by
  obtain ⟨hname, -, -, -, -, -⟩ := reachable_stateInv h _ (assocGet?_mem hget)
  have hdel : delete_database name st now =
      reconcile name (insertDB st name (markDeleting db)) now := by
    unfold delete_database
    rw [hget]
  have hget2 : assocGet? (insertDB st name (markDeleting db)).databases name =
      some (markDeleting db) :=
    assocGet?_assocSet_self _ _ _
  have hrec := reconcile_deleting now hget2 rfl
  have hmname : (markDeleting db).name = name := hname
  have hstore : (delete_database name st now).databases =
      assocErase (assocSet st.databases name (markDeleting db)) name := by
    rw [hdel, hrec, hmname]
    rfl
  refine ⟨?_, ?_, ?_⟩
  · rw [hstore]
    exact assocGet?_assocErase_self _ _
  · refine List.all_eq_true.mpr ?_
    intro r hr
    rcases List.mem_map.mp hr with ⟨q, hq, rfl⟩
    rw [hstore] at hq
    have hne : q.1 ≠ name := (mem_assocErase hq).2
    unfold get_database_status
    cases hg : assocGet? (delete_database name st now).databases q.1 with
    | none => rfl
    | some db' =>
      show (!((some q.1 : Option String) == some name)) = true
      have : ((some q.1 : Option String) == some name) = false :=
        beq_eq_false_iff_ne.mpr (fun hc => hne (Option.some.inj hc))
      rw [this]
      rfl
  · unfold get_database_status
    rw [hstore, assocGet?_assocErase_self]

/-- C7 witness: deleting prod-db from the concrete reachable state. -/
theorem C7_witness :
    assocGet? (delete_database "prod-db" demoState tick1).databases "prod-db" = none ∧
    (list_databases (delete_database "prod-db" demoState tick1)).all
      (fun r => !(resultName r == some "prod-db")) = true ∧
    get_database_status "prod-db" (delete_database "prod-db" demoState tick1) =
      .err "Database not found" :=
  C7_delete_removes demoState demoReachable "prod-db" demoRes tick1 (by decide)

end K8sOperator
